import Mathlib

/-!
Shallow embedding of the cframe-rs geometry core (src/vec3.rs, src/cframe.rs).
The Rust scalar type is `type Float = f64`; it is modelled here as the exact
reals, so every theorem speaks about the floating-point entries interpreted
as exact real numbers.  Definitions are transcribed from the Rust source,
field by field; `Vec3::unit` is the one routine called by cframe.rs that has
no definition under src/ and is modelled from the spec (see its doc comment).
-/

noncomputable section

/- ===== src/vec3.rs ===== -/

@[ext]
structure Vec3 where
  x : ℝ
  y : ℝ
  z : ℝ

namespace Vec3

def zero : Vec3 := ⟨0, 0, 0⟩

def up : Vec3 := ⟨0, 1, 0⟩

def down : Vec3 := ⟨0, -1, 0⟩

def left : Vec3 := ⟨-1, 0, 0⟩

def right : Vec3 := ⟨1, 0, 0⟩

def forward : Vec3 := ⟨0, 0, -1⟩

def backward : Vec3 := ⟨0, 0, 1⟩

def dot (a b : Vec3) : ℝ := a.x * b.x + a.y * b.y + a.z * b.z

/- Transcribes both `cross` and `crossed`, which compute the same value. -/
def cross (a b : Vec3) : Vec3 :=
  ⟨a.y * b.z - a.z * b.y, a.z * b.x - a.x * b.z, a.x * b.y - a.y * b.x⟩

def magnitude (v : Vec3) : ℝ := Real.sqrt (v.dot v)

/- Transcribes both `normalize` and `normalized`, which compute the same
value: each component is multiplied by inv_mag = 1/mag when mag > 0. -/
def normalized (v : Vec3) : Vec3 :=
  if v.magnitude > 0 then
    ⟨v.x * (1 / v.magnitude), v.y * (1 / v.magnitude), v.z * (1 / v.magnitude)⟩
  else zero

/-- Modelled from the spec: cframe.rs calls `Vec3::unit()`, which has no
definition under src/ (vec3.rs only defines `normalize`/`normalized`).  The
spec's normalization contract — unit-length vector, and the zero vector when
the magnitude is exactly 0 — is exactly `normalized`, so `unit` is modelled
as that function. -/
def unit (v : Vec3) : Vec3 := v.normalized

/- impl Mul<Float> for Vec3 (componentwise scaling by a scalar). -/
def scale (v : Vec3) : ℝ → Vec3 := fun s => ⟨v.x * s, v.y * s, v.z * s⟩

end Vec3

/- impl Sub for Vec3. -/
instance : Sub Vec3 := ⟨fun a b => ⟨a.x - b.x, a.y - b.y, a.z - b.z⟩⟩

/- impl Add for Vec3. -/
instance : Add Vec3 := ⟨fun a b => ⟨a.x + b.x, a.y + b.y, a.z + b.z⟩⟩

/- ===== src/cframe.rs ===== -/

@[ext]
structure CFrame where
  r11 : ℝ
  r12 : ℝ
  r13 : ℝ
  r14 : ℝ
  r21 : ℝ
  r22 : ℝ
  r23 : ℝ
  r24 : ℝ
  r31 : ℝ
  r32 : ℝ
  r33 : ℝ
  r34 : ℝ

namespace CFrame

def x (s : CFrame) : Vec3 := ⟨s.r11, s.r21, s.r31⟩

def y (s : CFrame) : Vec3 := ⟨s.r12, s.r22, s.r32⟩

def z (s : CFrame) : Vec3 := ⟨s.r13, s.r23, s.r33⟩

def p (s : CFrame) : Vec3 := ⟨s.r14, s.r24, s.r34⟩

def identity : CFrame := ⟨1, 0, 0, 0, 0, 1, 0, 0, 0, 0, 1, 0⟩

def from_components (m11 m12 m13 m14 m21 m22 m23 m24 m31 m32 m33 m34 : ℝ) :
    CFrame :=
  ⟨m11, m12, m13, m14, m21, m22, m23, m24, m31, m32, m33, m34⟩

def from_columns (x y z p : Vec3) : CFrame :=
  ⟨x.x, y.x, z.x, p.x, x.y, y.y, z.y, p.y, x.z, y.z, z.z, p.z⟩

/- The Rust body computes z, x, y, conditionally overwrites all three with a
fallback basis when x has zero magnitude, and then builds the struct from the
final x, y, z and `from`; branch by branch that struct literal is
`from_columns` of the final columns. -/
def from_pos_facing (frm tgt : Vec3) : CFrame :=
  let z := (frm - tgt).unit
  let x := Vec3.up.cross z
  let y := z.cross x
  if x.magnitude = 0 then
    if z.y < 0 then
      from_columns Vec3.forward Vec3.right Vec3.down frm
    else
      from_columns Vec3.backward Vec3.right Vec3.up frm
  else
    from_columns x y z frm

def look_at (eye center : Vec3) : CFrame :=
  if (eye - center).magnitude = 0 then identity
  else
    let z := (eye - center).unit
    let x := (Vec3.up.cross z).unit
    if x.magnitude = 0 then identity
    else
      let y := z.cross x
      ⟨x.x, y.x, z.x, -(x.x * eye.x + x.y * eye.y + x.z * eye.z),
       x.y, y.y, z.y, -(y.x * eye.x + y.y * eye.y + y.z * eye.z),
       x.z, y.z, z.z, -(z.x * eye.x + z.y * eye.y + z.z * eye.z)⟩

def from_pos (pos : Vec3) : CFrame :=
  ⟨1, 0, 0, pos.x, 0, 1, 0, pos.y, 0, 0, 1, pos.z⟩

def from_pos_quaternions (pos : Vec3) (i j k w : ℝ) : CFrame :=
  let m14 := pos.x
  let m24 := pos.y
  let m34 := pos.z
  let m11 := 1 - 2 * (j * j - k * k)
  let m12 := 2 * (i * j - k * w)
  let m13 := 2 * (i * k + j * w)
  let m21 := 2 * (i * j + k * w)
  let m22 := 1 - 2 * (i * i - k * k)
  let m23 := 2 * (j * k - i * w)
  let m31 := 2 * (i * k - j * w)
  let m32 := 2 * (j * k + i * w)
  let m33 := 1 - 2 * (i * i - j * j)
  ⟨m11, m12, m13, m14, m21, m22, m23, m24, m31, m32, m33, m34⟩

def perspective (fov aspect near far : ℝ) : List ℝ :=
  let f := 1 / Real.tan (fov / 2)
  let c00 := f / aspect
  let c01 : ℝ := 0
  let c02 : ℝ := 0
  let c03 : ℝ := 0
  let c10 : ℝ := 0
  let c11 := f
  let c12 : ℝ := 0
  let c13 : ℝ := 0
  let c20 : ℝ := 0
  let c21 : ℝ := 0
  let c22 := (far + near) / (near - far)
  let c23 : ℝ := -1
  let c30 : ℝ := 0
  let c31 : ℝ := 0
  let c32 := (2 * far * near) / (near - far)
  let c33 : ℝ := 0
  [c00, c01, c02, c03, c10, c11, c12, c13, c20, c21, c22, c23, c30, c31, c32, c33]

def to_array (s : CFrame) : List ℝ :=
  [s.r11, s.r21, s.r31, 0, s.r12, s.r22, s.r32, 0, s.r13,
   s.r23, s.r33, 0, s.r14, s.r24, s.r34, 1]

def determinant (s : CFrame) : ℝ :=
  s.r11 * (s.r22 * s.r33 - s.r32 * s.r23)
    - s.r21 * (s.r12 * s.r33 - s.r32 * s.r13)
    + s.r31 * (s.r12 * s.r23 - s.r22 * s.r13)

def inverse (s : CFrame) : CFrame :=
  let det := s.determinant
  if det = 0 then identity
  else
    let inv_det := 1 / det
    let m11 := (s.r22 * s.r33 - s.r32 * s.r23) * inv_det
    let m12 := (s.r31 * s.r23 - s.r21 * s.r33) * inv_det
    let m13 := (s.r21 * s.r32 - s.r31 * s.r22) * inv_det
    let m14 := (s.r21 * (s.r32 * s.r34 - s.r33 * s.r24)
        + s.r31 * (s.r23 * s.r24 - s.r22 * s.r34)
        + s.r22 * s.r33
        - s.r32 * s.r23) * inv_det
    let m21 := (s.r32 * s.r13 - s.r12 * s.r33) * inv_det
    let m22 := (s.r11 * s.r33 - s.r31 * s.r13) * inv_det
    let m23 := (s.r31 * s.r12 - s.r11 * s.r32) * inv_det
    let m24 := (s.r31 * (s.r12 * s.r34 - s.r13 * s.r24)
        + s.r11 * (s.r23 * s.r24 - s.r22 * s.r34)
        + s.r12 * s.r33
        - s.r32 * s.r13) * inv_det
    let m31 := (s.r12 * s.r23 - s.r22 * s.r13) * inv_det
    let m32 := (s.r21 * s.r13 - s.r11 * s.r23) * inv_det
    let m33 := (s.r11 * s.r22 - s.r21 * s.r12) * inv_det
    let m34 := (s.r11 * (s.r22 * s.r34 - s.r23 * s.r24)
        + s.r21 * (s.r13 * s.r24 - s.r12 * s.r34)
        + s.r12 * s.r23
        - s.r22 * s.r13) * inv_det
    ⟨m11, m12, m13, m14, m21, m22, m23, m24, m31, m32, m33, m34⟩

def mul (s rhs : CFrame) : CFrame :=
  from_components
    (s.r11 * rhs.r11 + s.r12 * rhs.r21 + s.r13 * rhs.r31)
    (s.r11 * rhs.r12 + s.r12 * rhs.r22 + s.r13 * rhs.r32)
    (s.r11 * rhs.r13 + s.r12 * rhs.r23 + s.r13 * rhs.r33)
    (s.r11 * rhs.r14 + s.r12 * rhs.r24 + s.r13 * rhs.r34 + s.r14)
    (s.r21 * rhs.r11 + s.r22 * rhs.r21 + s.r23 * rhs.r31)
    (s.r21 * rhs.r12 + s.r22 * rhs.r22 + s.r23 * rhs.r32)
    (s.r21 * rhs.r13 + s.r22 * rhs.r23 + s.r23 * rhs.r33)
    (s.r21 * rhs.r14 + s.r22 * rhs.r24 + s.r23 * rhs.r34 + s.r24)
    (s.r31 * rhs.r11 + s.r32 * rhs.r21 + s.r33 * rhs.r31)
    (s.r31 * rhs.r12 + s.r32 * rhs.r22 + s.r33 * rhs.r32)
    (s.r31 * rhs.r13 + s.r32 * rhs.r23 + s.r33 * rhs.r33)
    (s.r31 * rhs.r14 + s.r32 * rhs.r24 + s.r33 * rhs.r34 + s.r34)

end CFrame

/- impl Mul for CFrame (affine composition). -/
instance : Mul CFrame := ⟨CFrame.mul⟩

/-- Modelled from the spec, for comparison with the source's
`from_pos_quaternions`: the spec's standard quaternion-to-rotation-matrix
formula, with PLUS signs inside the diagonal entries
(m00 = 1 - 2(j^2+k^2), m11 = 1 - 2(i^2+k^2), m22 = 1 - 2(i^2+j^2)). -/
def from_pos_quaternions_spec (pos : Vec3) (i j k w : ℝ) : CFrame :=
  ⟨1 - 2 * (j * j + k * k), 2 * (i * j - k * w), 2 * (i * k + j * w), pos.x,
   2 * (i * j + k * w), 1 - 2 * (i * i + k * k), 2 * (j * k - i * w), pos.y,
   2 * (i * k - j * w), 2 * (j * k + i * w), 1 - 2 * (i * i + j * j), pos.z⟩

/- ===== general helper lemmas ===== -/

theorem Vec3.sub_def (a b : Vec3) : a - b = ⟨a.x - b.x, a.y - b.y, a.z - b.z⟩ := rfl

theorem Vec3.magnitude_mk (a b c : ℝ) :
    Vec3.magnitude ⟨a, b, c⟩ = Real.sqrt (a * a + b * b + c * c) := rfl

theorem Vec3.cross_mk (a b c d e f : ℝ) :
    Vec3.cross ⟨a, b, c⟩ ⟨d, e, f⟩ =
      ⟨b * f - c * e, c * d - a * f, a * e - b * d⟩ := rfl

theorem Vec3.dot_mk (a b c d e f : ℝ) :
    Vec3.dot ⟨a, b, c⟩ ⟨d, e, f⟩ = a * d + b * e + c * f := rfl

theorem CFrame.mul_def (a b : CFrame) : a * b = a.mul b := rfl

theorem CFrame.x_from_columns (a b c d : Vec3) : (CFrame.from_columns a b c d).x = a := rfl

theorem CFrame.y_from_columns (a b c d : Vec3) : (CFrame.from_columns a b c d).y = b := rfl

theorem CFrame.z_from_columns (a b c d : Vec3) : (CFrame.from_columns a b c d).z = c := rfl

theorem CFrame.p_from_columns (a b c d : Vec3) : (CFrame.from_columns a b c d).p = d := rfl

theorem sqrt_eq_of_sq {a b : ℝ} (hb : 0 ≤ b) (h : b ^ 2 = a) : Real.sqrt a = b := by
  rw [← h]; exact Real.sqrt_sq hb

theorem Vec3.magnitude_nonneg (v : Vec3) : 0 ≤ v.magnitude := Real.sqrt_nonneg _

theorem Vec3.magnitude_eq_zero {v : Vec3} : v.magnitude = 0 ↔ v = Vec3.zero := by
  unfold Vec3.magnitude
  rw [Real.sqrt_eq_zero']
  constructor
  · intro h
    simp only [Vec3.dot] at h
    have hx := mul_self_nonneg v.x
    have hy := mul_self_nonneg v.y
    have hz := mul_self_nonneg v.z
    have hx0 : v.x * v.x = 0 := by linarith
    have hy0 : v.y * v.y = 0 := by linarith
    have hz0 : v.z * v.z = 0 := by linarith
    ext
    · exact mul_self_eq_zero.mp hx0
    · exact mul_self_eq_zero.mp hy0
    · exact mul_self_eq_zero.mp hz0
  · intro h
    subst h
    simp [Vec3.dot, Vec3.zero]

theorem Vec3.mag_zero : Vec3.zero.magnitude = 0 := Vec3.magnitude_eq_zero.mpr rfl

theorem Vec3.unit_of_magnitude_pos {v : Vec3} (h : 0 < v.magnitude) :
    v.unit = ⟨v.x * (1 / v.magnitude), v.y * (1 / v.magnitude), v.z * (1 / v.magnitude)⟩ := by
  unfold Vec3.unit Vec3.normalized
  rw [if_pos h]

theorem Vec3.unit_of_magnitude_zero {v : Vec3} (h : v.magnitude = 0) :
    v.unit = Vec3.zero := by
  unfold Vec3.unit Vec3.normalized
  rw [if_neg (by rw [h]; exact lt_irrefl 0)]

theorem Vec3.unit_zero : Vec3.zero.unit = Vec3.zero :=
  Vec3.unit_of_magnitude_zero Vec3.mag_zero

theorem Vec3.up_cross_vertical (a : ℝ) : Vec3.up.cross ⟨0, a, 0⟩ = Vec3.zero := by
  simp [Vec3.up, Vec3.cross, Vec3.zero]

/- ===== claim theorems ===== -/

/-- C4: for every transform whose rotation-block determinant is exactly 0,
inverse() returns the identity transform, with no error and no other value. -/
theorem inverse_det_zero_eq_identity (A : CFrame) (h : A.determinant = 0) :
    A.inverse = CFrame.identity := by
  simp only [CFrame.inverse]
  rw [if_pos h]

/-- Witness for C4: the all-zero transform has determinant 0 and its inverse
is the identity. -/
theorem inverse_det_zero_eq_identity_witness :
    (CFrame.from_components 0 0 0 0 0 0 0 0 0 0 0 0).determinant = 0 ∧
      (CFrame.from_components 0 0 0 0 0 0 0 0 0 0 0 0).inverse = CFrame.identity := by
  have h : (CFrame.from_components 0 0 0 0 0 0 0 0 0 0 0 0).determinant = 0 := by
    norm_num [CFrame.determinant, CFrame.from_components]
  exact ⟨h, inverse_det_zero_eq_identity _ h⟩

/-- C9: transform multiplication (affine composition) is associative when the
entries are interpreted as exact reals: (A*B)*C = A*(B*C). -/
theorem cframe_mul_assoc (A B C : CFrame) : A * B * C = A * (B * C) := by
  simp only [CFrame.mul_def, CFrame.mul, CFrame.from_components]
  ext <;> dsimp only <;> ring

/-- C10: for every position, from_pos_facing(p, p) — a zero-length look
direction — falls into the z.y = 0 fallback branch and returns the fixed
frame with columns x = backward, y = right, z = up and translation p. -/
theorem from_pos_facing_self (pos : Vec3) :
    CFrame.from_pos_facing pos pos =
      CFrame.from_columns Vec3.backward Vec3.right Vec3.up pos := by
  have hsub : pos - pos = Vec3.zero := by
    rw [Vec3.sub_def]; simp [Vec3.zero]
  simp only [CFrame.from_pos_facing]
  rw [hsub, Vec3.unit_zero]
  rw [show Vec3.up.cross Vec3.zero = Vec3.zero from Vec3.up_cross_vertical 0]
  rw [if_pos Vec3.mag_zero, if_neg (by norm_num [Vec3.zero])]

/-- C8: perspective(fov, aspect, near, far) is the 16-element array with
f = 1/tan(fov/2), entry [0] = f/aspect, [5] = f, [10] = (far+near)/(near-far),
[11] = -1, [14] = 2 far near/(near-far), and every other entry exactly 0. -/
theorem perspective_entries (fov aspect near far : ℝ) :
    CFrame.perspective fov aspect near far =
      [1 / Real.tan (fov / 2) / aspect, 0, 0, 0,
       0, 1 / Real.tan (fov / 2), 0, 0,
       0, 0, (far + near) / (near - far), -1,
       0, 0, 2 * far * near / (near - far), 0] := rfl

/-- C5: normalized() of a vector with magnitude exactly 0 is the zero vector,
and for nonzero magnitude it is the vector scaled by 1/magnitude. -/
theorem normalized_cases (v : Vec3) :
    (v.magnitude = 0 → v.normalized = Vec3.zero) ∧
      (v.magnitude ≠ 0 → v.normalized = v.scale (1 / v.magnitude)) := by
  constructor
  · intro h
    unfold Vec3.normalized
    rw [if_neg (by rw [h]; exact lt_irrefl 0)]
  · intro h
    have hpos : 0 < v.magnitude := lt_of_le_of_ne (Vec3.magnitude_nonneg v) (Ne.symm h)
    unfold Vec3.normalized Vec3.scale
    rw [if_pos hpos]

/-- C1 (evaluation at the failing input): A = from_pos(1,2,3) has rotation-block
determinant 1, which is nonzero, yet A * A.inverse() is not the identity: its
translation column is (2,-1,6).  The source's inverse() builds the un-transposed
cofactor matrix and a translation formula that never multiplies by r14. -/
theorem inverse_fails_on_translation :
    (CFrame.from_pos ⟨1, 2, 3⟩).determinant ≠ 0 ∧
      (CFrame.from_pos ⟨1, 2, 3⟩ * (CFrame.from_pos ⟨1, 2, 3⟩).inverse).p = ⟨2, -1, 6⟩ ∧
      CFrame.from_pos ⟨1, 2, 3⟩ * (CFrame.from_pos ⟨1, 2, 3⟩).inverse ≠ CFrame.identity := by
  have hdet : (CFrame.from_pos ⟨1, 2, 3⟩).determinant = 1 := by
    norm_num [CFrame.determinant, CFrame.from_pos]
  have hinv : (CFrame.from_pos ⟨1, 2, 3⟩).inverse =
      CFrame.from_components 1 0 0 1 0 1 0 (-3) 0 0 1 3 := by
    simp only [CFrame.inverse, hdet]
    norm_num [CFrame.from_pos, CFrame.from_components]
  have hprod : CFrame.from_pos ⟨1, 2, 3⟩ * (CFrame.from_pos ⟨1, 2, 3⟩).inverse =
      CFrame.from_components 1 0 0 2 0 1 0 (-1) 0 0 1 6 := by
    rw [hinv]
    simp only [CFrame.mul_def, CFrame.mul]
    norm_num [CFrame.from_pos, CFrame.from_components]
  refine ⟨by rw [hdet]; norm_num, ?_, ?_⟩
  · rw [hprod]; rfl
  · rw [hprod]
    intro hcontra
    have h14 := congrArg CFrame.r14 hcontra
    norm_num [CFrame.from_components, CFrame.identity] at h14

/-- C2 (evaluation at the failing input): (i,j,k,w) = (0,0,3/5,4/5) is a unit
quaternion, but the source's from_pos_quaternions puts 43/25 in the top-left
rotation entry, where the spec's standard formula 1 - 2(j^2+k^2) gives 7/25:
the source subtracts k*k (and, on the other diagonal entries, k*k and j*j)
instead of adding. -/
theorem from_pos_quaternions_diagonal_bug :
    ((0:ℝ) * 0 + 0 * 0 + (3/5) * (3/5) + (4/5) * (4/5) = 1) ∧
      (CFrame.from_pos_quaternions ⟨0, 0, 0⟩ 0 0 (3/5) (4/5)).r11 = 43 / 25 ∧
      (from_pos_quaternions_spec ⟨0, 0, 0⟩ 0 0 (3/5) (4/5)).r11 = 7 / 25 ∧
      CFrame.from_pos_quaternions ⟨0, 0, 0⟩ 0 0 (3/5) (4/5) ≠
        from_pos_quaternions_spec ⟨0, 0, 0⟩ 0 0 (3/5) (4/5) := by
  refine ⟨by norm_num, ?_, ?_, ?_⟩
  · norm_num [CFrame.from_pos_quaternions]
  · norm_num [from_pos_quaternions_spec]
  · intro hcontra
    have h11 := congrArg CFrame.r11 hcontra
    norm_num [CFrame.from_pos_quaternions, from_pos_quaternions_spec] at h11

/-- Witness for C5 at v = (3, 0, 4), whose magnitude is 5. -/
theorem normalized_cases_witness :
    Vec3.magnitude ⟨3, 0, 4⟩ ≠ 0 ∧
      Vec3.normalized ⟨3, 0, 4⟩ = Vec3.scale ⟨3, 0, 4⟩ (1 / Vec3.magnitude ⟨3, 0, 4⟩) := by
  have hm : Vec3.magnitude ⟨3, 0, 4⟩ = 5 := by
    rw [Vec3.magnitude_mk]; exact sqrt_eq_of_sq (by norm_num) (by norm_num)
  have hne : Vec3.magnitude ⟨3, 0, 4⟩ ≠ 0 := by rw [hm]; norm_num
  exact ⟨hne, (normalized_cases ⟨3, 0, 4⟩).2 hne⟩

/- Concrete evaluation facts for the facing frame built from from = (0,0,0)
towards to = (-12,-15,-16): the look column is (12,15,16)/25 and the raw
right-axis cross product has magnitude 4/5. -/

theorem facing_sub_eval : ((⟨0, 0, 0⟩ : Vec3) - ⟨-12, -15, -16⟩) = ⟨12, 15, 16⟩ := by
  rw [Vec3.sub_def]; ext <;> norm_num

theorem facing_unit_eval : (⟨12, 15, 16⟩ : Vec3).unit = ⟨12/25, 3/5, 16/25⟩ := by
  have hm : Vec3.magnitude ⟨12, 15, 16⟩ = 25 := by
    rw [Vec3.magnitude_mk]; exact sqrt_eq_of_sq (by norm_num) (by norm_num)
  rw [Vec3.unit_of_magnitude_pos (by rw [hm]; norm_num), hm]
  ext <;> norm_num

theorem facing_cross_eval :
    Vec3.up.cross ⟨12/25, 3/5, 16/25⟩ = ⟨16/25, 0, -12/25⟩ := by
  rw [show Vec3.up = (⟨0, 1, 0⟩ : Vec3) from rfl, Vec3.cross_mk]
  ext <;> norm_num

theorem facing_mag_eval : Vec3.magnitude ⟨16/25, 0, -12/25⟩ = 4/5 := by
  rw [Vec3.magnitude_mk]; exact sqrt_eq_of_sq (by norm_num) (by norm_num)

/-- C3 (counterexample): with from = (0,0,0) and to = (-12,-15,-16) the look
direction is not parallel to world up, yet the x column of from_pos_facing has
magnitude 4/5, not 1: the source never normalizes cross(up, z), so the claim
that x is normalized(cross(up, z)) — a unit vector — is false. -/
theorem from_pos_facing_x_not_unit :
    (CFrame.from_pos_facing ⟨0, 0, 0⟩ ⟨-12, -15, -16⟩).x.magnitude ≠ 1 := by
  simp only [CFrame.from_pos_facing]
  rw [facing_sub_eval, facing_unit_eval, facing_cross_eval]
  rw [if_neg (by rw [facing_mag_eval]; norm_num)]
  rw [CFrame.x_from_columns, facing_mag_eval]
  norm_num

/-- C3 (amended): for every from, to whose look direction is not parallel to
world up, from_pos_facing sets z = normalized(from - to), x = cross(up, z)
WITHOUT normalization (a unit vector only when the look direction is
horizontal), and y = cross(z, x); these become the frame's columns, with
translation from. -/
theorem from_pos_facing_nondegenerate (frm tgt : Vec3)
    (h : (Vec3.up.cross ((frm - tgt).unit)).magnitude ≠ 0) :
    CFrame.from_pos_facing frm tgt =
      CFrame.from_columns (Vec3.up.cross ((frm - tgt).unit))
        (((frm - tgt).unit).cross (Vec3.up.cross ((frm - tgt).unit)))
        ((frm - tgt).unit) frm := by
  simp only [CFrame.from_pos_facing]
  rw [if_neg h]

/-- Witness for the amended C3 at from = (0,0,0), to = (-12,-15,-16). -/
theorem from_pos_facing_nondegenerate_witness :
    (Vec3.up.cross (((⟨0, 0, 0⟩ : Vec3) - ⟨-12, -15, -16⟩).unit)).magnitude ≠ 0 ∧
      CFrame.from_pos_facing ⟨0, 0, 0⟩ ⟨-12, -15, -16⟩ =
        CFrame.from_columns
          (Vec3.up.cross (((⟨0, 0, 0⟩ : Vec3) - ⟨-12, -15, -16⟩).unit))
          ((((⟨0, 0, 0⟩ : Vec3) - ⟨-12, -15, -16⟩).unit).cross
            (Vec3.up.cross (((⟨0, 0, 0⟩ : Vec3) - ⟨-12, -15, -16⟩).unit)))
          (((⟨0, 0, 0⟩ : Vec3) - ⟨-12, -15, -16⟩).unit) ⟨0, 0, 0⟩ := by
  have h : (Vec3.up.cross (((⟨0, 0, 0⟩ : Vec3) - ⟨-12, -15, -16⟩).unit)).magnitude ≠ 0 := by
    rw [facing_sub_eval, facing_unit_eval, facing_cross_eval, facing_mag_eval]
    norm_num
  exact ⟨h, from_pos_facing_nondegenerate _ _ h⟩

/-- C6: look_at returns exactly the identity transform whenever eye equals
center (zero-length look vector) or the computed right axis cross(up, z) has
zero magnitude (look vector parallel to up). -/
theorem look_at_degenerate (eye center : Vec3) :
    (eye = center → CFrame.look_at eye center = CFrame.identity) ∧
      ((Vec3.up.cross ((eye - center).unit)).magnitude = 0 →
        CFrame.look_at eye center = CFrame.identity) := by
  have hfirst : (eye - center).magnitude = 0 → CFrame.look_at eye center = CFrame.identity := by
    intro h
    simp only [CFrame.look_at]
    rw [if_pos h]
  constructor
  · intro h
    apply hfirst
    have hz : eye - center = Vec3.zero := by
      rw [h, Vec3.sub_def]; ext <;> simp [Vec3.zero]
    rw [hz]; exact Vec3.mag_zero
  · intro h
    by_cases hm : (eye - center).magnitude = 0
    · exact hfirst hm
    · have hcz : Vec3.up.cross ((eye - center).unit) = Vec3.zero :=
        Vec3.magnitude_eq_zero.mp h
      simp only [CFrame.look_at]
      rw [if_neg hm, hcz, Vec3.unit_zero, if_pos Vec3.mag_zero]

/-- Witness for C6: look_at at coincident eye and center, and at an eye
directly above the center (look vector parallel to up), both yield identity. -/
theorem look_at_degenerate_witness :
    CFrame.look_at ⟨1, 2, 3⟩ ⟨1, 2, 3⟩ = CFrame.identity ∧
      CFrame.look_at ⟨0, 5, 0⟩ ⟨0, 0, 0⟩ = CFrame.identity := by
  have h2 : (Vec3.up.cross (((⟨0, 5, 0⟩ : Vec3) - ⟨0, 0, 0⟩).unit)).magnitude = 0 := by
    have hs : ((⟨0, 5, 0⟩ : Vec3) - ⟨0, 0, 0⟩) = ⟨0, 5, 0⟩ := by
      rw [Vec3.sub_def]; ext <;> norm_num
    have hm : Vec3.magnitude ⟨0, 5, 0⟩ = 5 := by
      rw [Vec3.magnitude_mk]; exact sqrt_eq_of_sq (by norm_num) (by norm_num)
    have hu : (⟨0, 5, 0⟩ : Vec3).unit = ⟨0, 1, 0⟩ := by
      rw [Vec3.unit_of_magnitude_pos (by rw [hm]; norm_num), hm]
      ext <;> norm_num
    rw [hs, hu, show Vec3.up.cross ⟨0, 1, 0⟩ = Vec3.zero from Vec3.up_cross_vertical 1]
    exact Vec3.mag_zero
  exact ⟨(look_at_degenerate _ _).1 rfl, (look_at_degenerate _ _).2 h2⟩

/- Both fixed fallback bases of from_pos_facing are orthonormal and
handedness-consistent. -/
theorem fallback_basis_props (pos : Vec3) (F : CFrame)
    (h : F = CFrame.from_columns Vec3.forward Vec3.right Vec3.down pos ∨
      F = CFrame.from_columns Vec3.backward Vec3.right Vec3.up pos) :
    F.x.magnitude = 1 ∧ F.y.magnitude = 1 ∧ F.z.magnitude = 1 ∧
      F.x.dot F.y = 0 ∧ F.x.dot F.z = 0 ∧ F.y.dot F.z = 0 ∧
      F.x.cross F.y = F.z := by
  rcases h with h | h <;> subst h <;>
    refine ⟨?_, ?_, ?_, ?_, ?_, ?_, ?_⟩ <;>
      norm_num [CFrame.x_from_columns, CFrame.y_from_columns, CFrame.z_from_columns,
        Vec3.forward, Vec3.backward, Vec3.right, Vec3.up, Vec3.down,
        Vec3.magnitude, Vec3.dot, Vec3.cross]

/-- C7: whenever to - from is parallel to the world-up axis, from_pos_facing
takes the fallback branch — yielding one of the two fixed bases — and the
resulting columns are unit-length, mutually orthogonal and
handedness-consistent (cross(x, y) = z) in both the facing-down and facing-up
branches. -/
theorem from_pos_facing_parallel_up (frm tgt : Vec3) (c : ℝ)
    (h : tgt - frm = Vec3.up.scale c) :
    (CFrame.from_pos_facing frm tgt =
        CFrame.from_columns Vec3.forward Vec3.right Vec3.down frm ∨
      CFrame.from_pos_facing frm tgt =
        CFrame.from_columns Vec3.backward Vec3.right Vec3.up frm) ∧
      ((CFrame.from_pos_facing frm tgt).x.magnitude = 1 ∧
        (CFrame.from_pos_facing frm tgt).y.magnitude = 1 ∧
        (CFrame.from_pos_facing frm tgt).z.magnitude = 1 ∧
        (CFrame.from_pos_facing frm tgt).x.dot ((CFrame.from_pos_facing frm tgt).y) = 0 ∧
        (CFrame.from_pos_facing frm tgt).x.dot ((CFrame.from_pos_facing frm tgt).z) = 0 ∧
        (CFrame.from_pos_facing frm tgt).y.dot ((CFrame.from_pos_facing frm tgt).z) = 0 ∧
        (CFrame.from_pos_facing frm tgt).x.cross ((CFrame.from_pos_facing frm tgt).y) =
          (CFrame.from_pos_facing frm tgt).z) := by
  have hx := congrArg Vec3.x h
  have hy := congrArg Vec3.y h
  have hz := congrArg Vec3.z h
  simp only [Vec3.sub_def, Vec3.up, Vec3.scale, zero_mul, one_mul] at hx hy hz
  have hsub : frm - tgt = ⟨0, -c, 0⟩ := by
    rw [Vec3.sub_def]; ext <;> dsimp <;> linarith
  rcases lt_trichotomy c 0 with hc | hc | hc
  · have hm : Vec3.magnitude ⟨0, -c, 0⟩ = -c := by
      rw [Vec3.magnitude_mk]; exact sqrt_eq_of_sq (by linarith) (by ring)
    have hu : (⟨0, -c, 0⟩ : Vec3).unit = ⟨0, 1, 0⟩ := by
      rw [Vec3.unit_of_magnitude_pos (by rw [hm]; linarith), hm]
      ext <;> dsimp
      · norm_num
      · rw [mul_one_div, div_self (ne_of_gt (by linarith : (0:ℝ) < -c))]
      · norm_num
    have key : CFrame.from_pos_facing frm tgt =
        CFrame.from_columns Vec3.backward Vec3.right Vec3.up frm := by
      simp only [CFrame.from_pos_facing]
      rw [hsub, hu, show Vec3.up.cross ⟨0, 1, 0⟩ = Vec3.zero from Vec3.up_cross_vertical 1]
      rw [if_pos Vec3.mag_zero, if_neg (by norm_num)]
    exact ⟨Or.inr key, fallback_basis_props frm _ (Or.inr key)⟩
  · subst hc
    have h00 : (⟨0, -(0:ℝ), 0⟩ : Vec3) = Vec3.zero := by ext <;> norm_num [Vec3.zero]
    rw [h00] at hsub
    have key : CFrame.from_pos_facing frm tgt =
        CFrame.from_columns Vec3.backward Vec3.right Vec3.up frm := by
      simp only [CFrame.from_pos_facing]
      rw [hsub, Vec3.unit_zero,
        show Vec3.up.cross Vec3.zero = Vec3.zero from Vec3.up_cross_vertical 0]
      rw [if_pos Vec3.mag_zero, if_neg (by norm_num [Vec3.zero])]
    exact ⟨Or.inr key, fallback_basis_props frm _ (Or.inr key)⟩
  · have hm : Vec3.magnitude ⟨0, -c, 0⟩ = c := by
      rw [Vec3.magnitude_mk]; exact sqrt_eq_of_sq (by linarith) (by ring)
    have hu : (⟨0, -c, 0⟩ : Vec3).unit = ⟨0, -1, 0⟩ := by
      rw [Vec3.unit_of_magnitude_pos (by rw [hm]; linarith), hm]
      ext <;> dsimp
      · norm_num
      · rw [neg_mul, mul_one_div, div_self (ne_of_gt hc)]
      · norm_num
    have key : CFrame.from_pos_facing frm tgt =
        CFrame.from_columns Vec3.forward Vec3.right Vec3.down frm := by
      simp only [CFrame.from_pos_facing]
      rw [hsub, hu, show Vec3.up.cross ⟨0, -1, 0⟩ = Vec3.zero from Vec3.up_cross_vertical (-1)]
      rw [if_pos Vec3.mag_zero, if_pos (by norm_num)]
    exact ⟨Or.inl key, fallback_basis_props frm _ (Or.inl key)⟩

/-- Witness for C7 with from = (0,0,0), to = (0,2,0): to - from is 2 times the
world-up axis, the fallback branch fires, and the resulting fixed basis is
orthonormal and handedness-consistent. -/
theorem from_pos_facing_parallel_up_witness :
    ((⟨0, 2, 0⟩ : Vec3) - ⟨0, 0, 0⟩ = Vec3.up.scale 2) ∧
      ((CFrame.from_pos_facing ⟨0, 0, 0⟩ ⟨0, 2, 0⟩ =
          CFrame.from_columns Vec3.forward Vec3.right Vec3.down ⟨0, 0, 0⟩ ∨
        CFrame.from_pos_facing ⟨0, 0, 0⟩ ⟨0, 2, 0⟩ =
          CFrame.from_columns Vec3.backward Vec3.right Vec3.up ⟨0, 0, 0⟩) ∧
        ((CFrame.from_pos_facing ⟨0, 0, 0⟩ ⟨0, 2, 0⟩).x.magnitude = 1 ∧
          (CFrame.from_pos_facing ⟨0, 0, 0⟩ ⟨0, 2, 0⟩).y.magnitude = 1 ∧
          (CFrame.from_pos_facing ⟨0, 0, 0⟩ ⟨0, 2, 0⟩).z.magnitude = 1 ∧
          (CFrame.from_pos_facing ⟨0, 0, 0⟩ ⟨0, 2, 0⟩).x.dot
            ((CFrame.from_pos_facing ⟨0, 0, 0⟩ ⟨0, 2, 0⟩).y) = 0 ∧
          (CFrame.from_pos_facing ⟨0, 0, 0⟩ ⟨0, 2, 0⟩).x.dot
            ((CFrame.from_pos_facing ⟨0, 0, 0⟩ ⟨0, 2, 0⟩).z) = 0 ∧
          (CFrame.from_pos_facing ⟨0, 0, 0⟩ ⟨0, 2, 0⟩).y.dot
            ((CFrame.from_pos_facing ⟨0, 0, 0⟩ ⟨0, 2, 0⟩).z) = 0 ∧
          (CFrame.from_pos_facing ⟨0, 0, 0⟩ ⟨0, 2, 0⟩).x.cross
            ((CFrame.from_pos_facing ⟨0, 0, 0⟩ ⟨0, 2, 0⟩).y) =
            (CFrame.from_pos_facing ⟨0, 0, 0⟩ ⟨0, 2, 0⟩).z)) := by
  have h : (⟨0, 2, 0⟩ : Vec3) - ⟨0, 0, 0⟩ = Vec3.up.scale 2 := by
    rw [Vec3.sub_def]; ext <;> norm_num [Vec3.up, Vec3.scale]
  exact ⟨h, from_pos_facing_parallel_up ⟨0, 0, 0⟩ ⟨0, 2, 0⟩ 2 h⟩

end
